import Mathlib

/-
Verification of the cuid C implementation (src/cuid.h).

The C code is shallowly embedded: machine integers become `Nat` with explicit
`% 2^32` / `% 2^64` where the C arithmetic can wrap, character buffers become
`List Char` (writes through `List.set`, mirroring the C index assignments),
and the fixed 16-byte scratch buffers used by `cuid_base36_pad` are modelled
by the list of bytes actually written (digits only; the C terminator byte is
made explicit where a later read could observe it).  External collaborators
(the system 32-bit random source, the host-name words, the process id) are
parameters of the embedded functions.
-/

/-- `'\0'`, the C string terminator byte. -/
def cuid_nul : Char := Char.ofNat 0

/-- `CUID_SIZE`: the cuid result buffer holds 23 characters plus terminator. -/
def CUID_SIZE : Nat := 24

/-- `CUID_BASE36_RESULT_SIZE`: capacity of the base36 scratch buffers. -/
def CUID_BASE36_RESULT_SIZE : Nat := 16

/-- The base36 alphabet `cuid_radix36_table` from `cuid_base36`. -/
def cuid_radix36_table : List Char := "0123456789abcdefghijklmnopqrstuvwxyz".toList

/-- One table lookup `cuid_radix36_table[d]`. -/
def radix36_char (d : Nat) : Char := cuid_radix36_table.getD d cuid_nul

/-- The do-while loop of `cuid_base36`: emits base36 digits least-significant
first; the C loop runs while the quotient is positive and fewer than
`CUID_BASE36_RESULT_SIZE - 1 = 15` digits were emitted, which the fuel
argument (initially 14) mirrors exactly. -/
def cuid_base36_go (n : Nat) : Nat → List Char
  | 0 => [radix36_char (n % 36)]
  | fuel + 1 =>
    if n / 36 > 0 then radix36_char (n % 36) :: cuid_base36_go (n / 36) fuel
    else [radix36_char (n % 36)]

/-- `cuid_base36`: base36 digit string of `n`, most-significant first
(the C function inverts the accumulated digits before returning). -/
def cuid_base36 (n : Nat) : List Char :=
  (cuid_base36_go n (CUID_BASE36_RESULT_SIZE - 2)).reverse

/-- The buffer contents produced by a successful `cuid_base36_pad` call:
left-pad with `pad_char` when the plain encoding is shorter than
`pad_length`, keep it when equal, and keep only the last (least
significant) `pad_length` digits when longer.  This is the digit part of
the buffer; the C code additionally leaves a terminator at index
`pad_length`. -/
def cuid_base36_render (n : Nat) (pad_length : Nat) (pad_char : Char) : List Char :=
  let s := cuid_base36 n
  if s.length < pad_length then List.replicate (pad_length - s.length) pad_char ++ s
  else if s.length > pad_length then s.drop (s.length - pad_length)
  else s

/-- `cuid_base36_pad` with its fatal-error branch: the C function calls
`CUID_EXIT` when `pad_length >= CUID_BASE36_RESULT_SIZE`, modelled as
`none`; otherwise it fills the buffer as `cuid_base36_render` describes
and returns `pad_length`. -/
def cuid_base36_pad (n : Nat) (pad_length : Nat) (pad_char : Char) : Option (List Char) :=
  if pad_length ≥ CUID_BASE36_RESULT_SIZE then none
  else some (cuid_base36_render n pad_length pad_char)

theorem cuid_base36_go_length_le (n : Nat) : ∀ fuel, (cuid_base36_go n fuel).length ≤ fuel + 1 := by
  intro fuel
  induction fuel generalizing n with
  | zero => simp [cuid_base36_go]
  | succ f ih =>
    simp only [cuid_base36_go]
    split
    · simpa using Nat.succ_le_succ (ih (n / 36))
    · simp

theorem cuid_base36_go_ne_nil (n : Nat) : ∀ fuel, cuid_base36_go n fuel ≠ [] := by
  intro fuel
  cases fuel with
  | zero => simp [cuid_base36_go]
  | succ f =>
    simp only [cuid_base36_go]
    split <;> simp

theorem cuid_base36_length_pos (n : Nat) : 0 < (cuid_base36 n).length := by
  rw [cuid_base36]
  simp only [List.length_reverse]
  exact List.length_pos.mpr (cuid_base36_go_ne_nil n _)

theorem cuid_base36_render_length (n pad_length : Nat) (pad_char : Char) :
    (cuid_base36_render n pad_length pad_char).length = pad_length := by
  rw [cuid_base36_render]
  by_cases h1 : (cuid_base36 n).length < pad_length
  · simp [h1]
    omega
  · by_cases h2 : (cuid_base36 n).length > pad_length
    · simp [h1, h2]
      omega
    · simp [h1, h2]
      omega

/-- `copy_into dst off src` is the C loop
`for i in [0, src.len): dst[off + i] = src[i]`. -/
def copy_into : List Char → Nat → List Char → List Char
  | dst, _, [] => dst
  | dst, off, c :: cs => copy_into (dst.set off c) (off + 1) cs

theorem copy_into_length (src : List Char) :
    ∀ (dst : List Char) (off : Nat), (copy_into dst off src).length = dst.length := by
  induction src with
  | nil => intro dst off; rfl
  | cons c cs ih =>
    intro dst off
    simp [copy_into, ih]

theorem list_set_eq_take_cons_drop (l : List Char) (n : Nat) (c : Char) (h : n < l.length) :
    l.set n c = l.take n ++ c :: l.drop (n + 1) := by
  induction l generalizing n with
  | nil => simp at h
  | cons a as ih =>
    cases n with
    | zero => simp
    | succ m =>
      simp only [List.set, List.take, List.drop, List.cons_append]
      rw [ih m (by simpa using h)]

theorem copy_into_eq (src : List Char) :
    ∀ (dst : List Char) (off : Nat), off + src.length ≤ dst.length →
    copy_into dst off src = dst.take off ++ src ++ dst.drop (off + src.length) := by
  induction src with
  | nil =>
    intro dst off _
    simp [copy_into]
  | cons c cs ih =>
    intro dst off h
    have hoff : off < dst.length := by simp at h; omega
    have hlen : (dst.set off c).length = dst.length := by simp
    have hrec : copy_into (dst.set off c) (off + 1) cs =
        (dst.set off c).take (off + 1) ++ cs ++ (dst.set off c).drop (off + 1 + cs.length) := by
      apply ih
      simp at h ⊢
      omega
    rw [copy_into, hrec, list_set_eq_take_cons_drop dst off c hoff]
    have htk : (dst.take off).length = off := by simp; omega
    have e1 : (dst.take off ++ c :: dst.drop (off + 1)).take (off + 1) =
        dst.take off ++ [c] := by
      rw [List.take_append_eq_append_take, htk]
      simp
    have hA : (dst.take off).drop (off + 1 + cs.length) = [] :=
      List.drop_eq_nil_of_le (by rw [htk]; omega)
    have e2 : (dst.take off ++ c :: dst.drop (off + 1)).drop (off + 1 + cs.length) =
        dst.drop (off + (cs.length + 1)) := by
      rw [List.drop_append_eq_append_drop, hA, htk]
      have h1 : off + 1 + cs.length - off = cs.length + 1 := by omega
      rw [h1, List.drop_succ_cons, List.drop_drop]
      simp only [List.nil_append]
      congr 1
      omega
    rw [e1, e2]
    simp only [List.append_assoc, List.cons_append, List.singleton_append, List.length_cons,
      List.nil_append]

/-- `cuid_create_counter`: the default counter starts at zero. -/
def cuid_create_counter : Nat := 0

/-- `cuid_init_counter`: resets the counter value to zero. -/
def cuid_init_counter (_c : Nat) : Nat := 0

/-- `cuid_read_counter`: returns the counter value. -/
def cuid_read_counter (c : Nat) : Nat := c

/-- `cuid_inc_counter`: `c.value++` on a C `unsigned`, wrapping at `2^32`. -/
def cuid_inc_counter (c : Nat) : Nat := (c + 1) % 2 ^ 32

/-- `MWC_CYCLE`: size of the MWC lag table. -/
def MWC_CYCLE : Nat := 4096

/-- `MWC_C_MAX`: Marsaglia's bound for the initial carry. -/
def MWC_C_MAX : Nat := 809430660

/-- `mwc_random_t`: the MWC state.  The two `uint32_t[4096]` tables are
modelled as functions on `Fin 4096`; all word values are kept below
`2^32` by the operations themselves. -/
structure mwc_random_t where
  mwc_q : Fin 4096 → Nat
  mwc_carry : Nat
  mwc_current_cycle : Fin 4096
  mwc_initial_carry : Nat
  mwc_initial_q : Fin 4096 → Nat

/-- The rejection-sampling condition of `mwc_initial_c`: the 32-bit value
drawn from the system source is below `MWC_C_MAX`. -/
def mwc_seed_ok (rand32 : Nat → Nat) (i : Nat) : Prop := rand32 i % 2 ^ 32 < MWC_C_MAX

instance (rand32 : Nat → Nat) (i : Nat) : Decidable (mwc_seed_ok rand32 i) := by
  unfold mwc_seed_ok
  infer_instance

/-- `mwc_initial_c`: draws from the system random stream until a value
strictly below `MWC_C_MAX` appears; the stream is consumed sequentially,
so the accepted value is the one at the first index satisfying the bound. -/
def mwc_initial_c (rand32 : Nat → Nat) (h : ∃ i, mwc_seed_ok rand32 i) : Nat :=
  rand32 (Nat.find h) % 2 ^ 32

/-- `mwc_create`: seeds the carry via `mwc_initial_c`, fills the table with
the following 4096 draws of the stream, records both as the initial
snapshot, and sets the cursor to `MWC_CYCLE - 1`. -/
def mwc_create (rand32 : Nat → Nat) (h : ∃ i, mwc_seed_ok rand32 i) : mwc_random_t :=
  let c := mwc_initial_c rand32 h
  { mwc_q := fun i => rand32 (Nat.find h + 1 + i.val) % 2 ^ 32
    mwc_carry := c
    mwc_current_cycle := ⟨MWC_CYCLE - 1, by norm_num [MWC_CYCLE]⟩
    mwc_initial_carry := c
    mwc_initial_q := fun i => rand32 (Nat.find h + 1 + i.val) % 2 ^ 32 }

/-- `mwc_init`: restores carry, cursor and table from the initial snapshot. -/
def mwc_init (r : mwc_random_t) : mwc_random_t :=
  { r with
    mwc_carry := r.mwc_initial_carry
    mwc_current_cycle := ⟨MWC_CYCLE - 1, by norm_num [MWC_CYCLE]⟩
    mwc_q := r.mwc_initial_q }

/-- `mwc_read_random`: returns `Q[cursor]`. -/
def mwc_read_random (state : mwc_random_t) : Nat :=
  state.mwc_q state.mwc_current_cycle

/-- `mwc_next_random`: one MWC step, with all `uint32_t`/`uint64_t`
operations made explicit (`& (MWC_CYCLE - 1)` is `% 4096`; the `uint64_t`
product is reduced `% 2^64`; the `uint32_t` sums and the stored
`m - x` are reduced `% 2^32`). -/
def mwc_next_random (state : mwc_random_t) : mwc_random_t :=
  let a : Nat := 18782
  let m : Nat := 0xfffffffe
  let cycle : Fin 4096 :=
    ⟨(state.mwc_current_cycle.val + 1) % 4096, Nat.mod_lt _ (by norm_num)⟩
  let t : Nat := (a * state.mwc_q cycle + state.mwc_carry) % 2 ^ 64
  let carry1 : Nat := t / 2 ^ 32
  let x1 : Nat := (t % 2 ^ 32 + carry1) % 2 ^ 32
  let x : Nat := if x1 < carry1 then (x1 + 1) % 2 ^ 32 else x1
  let carry : Nat := if x1 < carry1 then (carry1 + 1) % 2 ^ 32 else carry1
  { state with
    mwc_current_cycle := cycle
    mwc_carry := carry
    mwc_q := fun j => if j = cycle then (m + 2 ^ 32 - x) % 2 ^ 32 else state.mwc_q j }

/-- `N` iterations of `mwc_next_random`. -/
def mwc_advanceN : Nat → mwc_random_t → mwc_random_t
  | 0, s => s
  | n + 1, s => mwc_advanceN n (mwc_next_random s)

/-- The MWC states reachable from `s0` by any sequence of advance
(`mwc_next_random`) and reset (`mwc_init`) operations. -/
inductive MwcReachable (s0 : mwc_random_t) : mwc_random_t → Prop
  | refl : MwcReachable s0 s0
  | advance {s : mwc_random_t} : MwcReachable s0 s → MwcReachable s0 (mwc_next_random s)
  | reset {s : mwc_random_t} : MwcReachable s0 s → MwcReachable s0 (mwc_init s)

theorem mwc_next_random_initial_carry (s : mwc_random_t) :
    (mwc_next_random s).mwc_initial_carry = s.mwc_initial_carry := rfl

theorem mwc_next_random_initial_q (s : mwc_random_t) :
    (mwc_next_random s).mwc_initial_q = s.mwc_initial_q := rfl

theorem mwc_init_initial_carry (s : mwc_random_t) :
    (mwc_init s).mwc_initial_carry = s.mwc_initial_carry := rfl

theorem mwc_init_initial_q (s : mwc_random_t) :
    (mwc_init s).mwc_initial_q = s.mwc_initial_q := rfl

/-- Reachable states keep the recorded initial snapshot of their origin. -/
theorem mwc_reachable_initial (s0 s : mwc_random_t) (h : MwcReachable s0 s) :
    s.mwc_initial_carry = s0.mwc_initial_carry ∧ s.mwc_initial_q = s0.mwc_initial_q := by
  induction h with
  | refl => exact ⟨rfl, rfl⟩
  | advance _ ih => exact ih
  | reset _ ih => exact ih

/-- `mwc_init` only looks at the initial snapshot of its argument. -/
theorem mwc_init_eq_of_initial_eq (s r : mwc_random_t)
    (hc : s.mwc_initial_carry = r.mwc_initial_carry)
    (hq : s.mwc_initial_q = r.mwc_initial_q) : mwc_init s = mwc_init r := by
  simp [mwc_init, hc, hq]

/-- `CUID_FINGERPRINT_SIZE`: the fingerprint argument is 5 bytes
(4 characters plus terminator). -/
def CUID_FINGERPRINT_SIZE : Nat := 5

/-- `CUID_TIMESTAMP_LENGTH`: the timestamp block is 6 characters wide. -/
def CUID_TIMESTAMP_LENGTH : Nat := 6

/-- `CUID_BLOCK_LENGTH`: every other block is 4 characters wide. -/
def CUID_BLOCK_LENGTH : Nat := 4

/-- The 64-bit accumulation loop of `cuid_get_fingerprint`: sums the
host-name buffer's 32-bit words into a `uint64_t`. -/
def cuid_hostname_number (hostname_values : List Nat) : Nat :=
  hostname_values.foldl (fun acc w => (acc + w % 2 ^ 32) % 2 ^ 64) 0

/-- `cuid_get_fingerprint` (default provider): writes the width-2
zero-padded base36 of the host-name word sum at `result[0..1]`, the
width-2 zero-padded base36 of the process id at `result[2..3]` (each
`cuid_base36_pad` call also leaves its terminator, at relative index 2),
and returns `2 + 2`.  The host-name words and the pid are the external
collaborators, passed as parameters. -/
def cuid_get_fingerprint (hostname_values : List Nat) (pid : Nat)
    (result : List Char) : Nat × List Char :=
  let hostname_number := cuid_hostname_number hostname_values
  let r1 := copy_into result 0 (cuid_base36_render hostname_number 2 '0' ++ [cuid_nul])
  let r2 := copy_into r1 2 (cuid_base36_render pid 2 '0' ++ [cuid_nul])
  (2 + 2, r2)

/-- `cuid_t`: the pure-mode context.  The `char` arrays are `List Char`;
the scratch string fields hold the digits last rendered into them. -/
structure cuid_t where
  cuid_fingerprint : List Char
  cuid_counter : Nat
  cuid_counter_str : List Char
  cuid_rnd1 : mwc_random_t
  cuid_rnd2 : mwc_random_t
  cuid_rnd1_str : List Char
  cuid_rnd2_str : List Char
  cuid_value : List Char
  cuid_timestamp : List Char

/-- `cuid_create`: zero-initializes every buffer (C designated-initializer
semantics), creates the counter and the two MWC states from the two
system random streams, and copies `CUID_FINGERPRINT_SIZE = 5` bytes of
the fingerprint argument into the fingerprint buffer. -/
def cuid_create (fingerprint : List Char)
    (rand1 : Nat → Nat) (h1 : ∃ i, mwc_seed_ok rand1 i)
    (rand2 : Nat → Nat) (h2 : ∃ i, mwc_seed_ok rand2 i) : cuid_t :=
  { cuid_fingerprint :=
      copy_into (List.replicate CUID_BASE36_RESULT_SIZE cuid_nul) 0
        (fingerprint.take CUID_FINGERPRINT_SIZE)
    cuid_counter := cuid_create_counter
    cuid_counter_str := List.replicate CUID_BASE36_RESULT_SIZE cuid_nul
    cuid_rnd1 := mwc_create rand1 h1
    cuid_rnd2 := mwc_create rand2 h2
    cuid_rnd1_str := List.replicate CUID_BASE36_RESULT_SIZE cuid_nul
    cuid_rnd2_str := List.replicate CUID_BASE36_RESULT_SIZE cuid_nul
    cuid_value := List.replicate CUID_SIZE cuid_nul
    cuid_timestamp := List.replicate CUID_BASE36_RESULT_SIZE cuid_nul }

/-- `cuid_gen_value_string`: renders the value buffer in place —
`[0]='c'`, timestamp at `[1..6]`, padded counter at `[7..10]`,
fingerprint bytes at `[11..14]`, the two padded random reads at
`[15..18]` and `[19..22]`.  Each block copy is the corresponding C
`for` loop. -/
def cuid_gen_value_string (id : cuid_t) : cuid_t :=
  let v0 := id.cuid_value.set 0 'c'
  let v1 := copy_into v0 1 (id.cuid_timestamp.take CUID_TIMESTAMP_LENGTH)
  let counter_str := cuid_base36_render (cuid_read_counter id.cuid_counter) CUID_BLOCK_LENGTH '0'
  let v2 := copy_into v1 (CUID_TIMESTAMP_LENGTH + 1) (counter_str.take CUID_BLOCK_LENGTH)
  let v3 := copy_into v2 (CUID_BLOCK_LENGTH + CUID_TIMESTAMP_LENGTH + 1)
    (id.cuid_fingerprint.take CUID_BLOCK_LENGTH)
  let rnd1_str := cuid_base36_render (mwc_read_random id.cuid_rnd1) CUID_BLOCK_LENGTH '0'
  let v4 := copy_into v3 (2 * CUID_BLOCK_LENGTH + CUID_TIMESTAMP_LENGTH + 1)
    (rnd1_str.take CUID_BLOCK_LENGTH)
  let rnd2_str := cuid_base36_render (mwc_read_random id.cuid_rnd2) CUID_BLOCK_LENGTH '0'
  let v5 := copy_into v4 (3 * CUID_BLOCK_LENGTH + CUID_TIMESTAMP_LENGTH + 1)
    (rnd2_str.take CUID_BLOCK_LENGTH)
  { id with
    cuid_counter_str := counter_str
    cuid_rnd1_str := rnd1_str
    cuid_rnd2_str := rnd2_str
    cuid_value := v5 }

/-- `cuid_init`: resets the counter and both MWC states, stamps the
6-wide padded timestamp, clears the value buffer, and renders. -/
def cuid_init (id : cuid_t) (timestamp : Nat) : cuid_t :=
  cuid_gen_value_string
    { id with
      cuid_counter := cuid_init_counter id.cuid_counter
      cuid_rnd1 := mwc_init id.cuid_rnd1
      cuid_rnd2 := mwc_init id.cuid_rnd2
      cuid_timestamp := cuid_base36_render timestamp CUID_TIMESTAMP_LENGTH '0'
      cuid_value := List.replicate CUID_SIZE cuid_nul }

/-- `cuid_read`: copies the `CUID_SIZE` bytes of the value buffer out. -/
def cuid_read (id : cuid_t) : List Char := id.cuid_value.take CUID_SIZE

/-- `cuid_next`: increments the counter, advances both MWC states,
re-stamps the timestamp, and re-renders (without clearing the buffer). -/
def cuid_next (id : cuid_t) (timestamp : Nat) : cuid_t :=
  cuid_gen_value_string
    { id with
      cuid_counter := cuid_inc_counter id.cuid_counter
      cuid_rnd1 := mwc_next_random id.cuid_rnd1
      cuid_rnd2 := mwc_next_random id.cuid_rnd2
      cuid_timestamp := cuid_base36_render timestamp CUID_TIMESTAMP_LENGTH '0' }

/-- The quick-mode `cuid()` function.  Its collaborators are parameters:
`ts` the timestamp read, `counter` the pre-incremented counter value
used for this call, the host-name words and pid consumed by the default
fingerprint provider, and `r1`, `r2` the two system random draws.
`result` is the caller's 24-byte buffer.  Each `cuid_base36_pad` call
writes its digits and a terminator at the running offset; the returned
`Nat` is the accumulated length. -/
def cuid (ts counter : Nat) (hostname_values : List Nat) (pid : Nat)
    (r1 r2 : Nat) (result : List Char) : Nat × List Char :=
  let v0 := result.set 0 'c'
  let v1 := copy_into v0 1 (cuid_base36_render ts 6 '0' ++ [cuid_nul])
  let len1 := 1 + 6
  let v2 := copy_into v1 len1 (cuid_base36_render counter 4 '0' ++ [cuid_nul])
  let len2 := len1 + 4
  let fp := cuid_get_fingerprint hostname_values pid
    (List.replicate CUID_FINGERPRINT_SIZE cuid_nul)
  let v3 := copy_into v2 len2 fp.2
  let len3 := len2 + fp.1
  let v4 := copy_into v3 len3 (cuid_base36_render r1 4 '0' ++ [cuid_nul])
  let len4 := len3 + 4
  let v5 := copy_into v4 len4 (cuid_base36_render r2 4 '0' ++ [cuid_nul])
  let len5 := len4 + 4
  (len5, v5.set (CUID_SIZE - 1) cuid_nul)

theorem copy_into_at (pre rest src : List Char) (off k : Nat)
    (hoff : pre.length = off) (hk : src.length = k) (h : k ≤ rest.length) :
    copy_into (pre ++ rest) off src = pre ++ src ++ rest.drop k := by
  subst hoff
  subst hk
  rw [copy_into_eq src _ _ (by simp; omega)]
  have h1 : (pre ++ rest).take pre.length = pre := by
    rw [List.take_append_eq_append_take]
    simp
  have h2 : (pre ++ rest).drop (pre.length + src.length) = rest.drop src.length := by
    rw [List.drop_append_eq_append_drop]
    have hz : pre.drop (pre.length + src.length) = [] := List.drop_eq_nil_of_le (by omega)
    rw [hz]
    simp
  rw [h1, h2]

theorem cuid_gen_value_string_fields (id : cuid_t) :
    (cuid_gen_value_string id).cuid_fingerprint = id.cuid_fingerprint ∧
    (cuid_gen_value_string id).cuid_counter = id.cuid_counter ∧
    (cuid_gen_value_string id).cuid_rnd1 = id.cuid_rnd1 ∧
    (cuid_gen_value_string id).cuid_rnd2 = id.cuid_rnd2 ∧
    (cuid_gen_value_string id).cuid_timestamp = id.cuid_timestamp :=
  ⟨rfl, rfl, rfl, rfl, rfl⟩

theorem cuid_gen_value_string_value_length (id : cuid_t) :
    (cuid_gen_value_string id).cuid_value.length = id.cuid_value.length := by
  simp [cuid_gen_value_string, copy_into_length]

/-- The rendered value buffer, characterised: fixed offsets
`[0]='c'`, `[1..6]` timestamp, `[7..10]` padded counter, `[11..14]`
fingerprint bytes, `[15..18]` and `[19..22]` the two padded random
reads; byte `[23]` is whatever the buffer held before. -/
theorem cuid_gen_value_string_spec (id : cuid_t)
    (hv : id.cuid_value.length = 24)
    (ht : 6 ≤ id.cuid_timestamp.length)
    (hf : 4 ≤ id.cuid_fingerprint.length) :
    (cuid_gen_value_string id).cuid_value =
      'c' :: (id.cuid_timestamp.take 6
        ++ cuid_base36_render id.cuid_counter 4 '0'
        ++ id.cuid_fingerprint.take 4
        ++ cuid_base36_render (mwc_read_random id.cuid_rnd1) 4 '0'
        ++ cuid_base36_render (mwc_read_random id.cuid_rnd2) 4 '0'
        ++ id.cuid_value.drop 23) := by
  have hts6 : (id.cuid_timestamp.take 6).length = 6 := by simp; omega
  have hfp4 : (id.cuid_fingerprint.take 4).length = 4 := by simp; omega
  have hc4 : (cuid_base36_render id.cuid_counter 4 '0').length = 4 :=
    cuid_base36_render_length _ _ _
  have hr14 : (cuid_base36_render (mwc_read_random id.cuid_rnd1) 4 '0').length = 4 :=
    cuid_base36_render_length _ _ _
  have hr24 : (cuid_base36_render (mwc_read_random id.cuid_rnd2) 4 '0').length = 4 :=
    cuid_base36_render_length _ _ _
  simp only [cuid_gen_value_string, cuid_read_counter, CUID_TIMESTAMP_LENGTH, CUID_BLOCK_LENGTH]
  have e0 : id.cuid_value.set 0 'c' = ['c'] ++ id.cuid_value.drop 1 := by
    rw [list_set_eq_take_cons_drop id.cuid_value 0 'c' (by omega)]
    simp
  rw [e0]
  rw [List.take_of_length_le (le_of_eq hc4), List.take_of_length_le (le_of_eq hr14),
    List.take_of_length_le (le_of_eq hr24)]
  rw [copy_into_at ['c'] (id.cuid_value.drop 1) (id.cuid_timestamp.take 6) 1 6
    (by simp) hts6 (by simp; omega)]
  rw [List.drop_drop]
  rw [copy_into_at (['c'] ++ id.cuid_timestamp.take 6) (id.cuid_value.drop (1 + 6))
    (cuid_base36_render id.cuid_counter 4 '0') (6 + 1) 4
    (by simp [hts6]) hc4 (by simp; omega)]
  rw [List.drop_drop]
  rw [copy_into_at (['c'] ++ id.cuid_timestamp.take 6 ++ cuid_base36_render id.cuid_counter 4 '0')
    (id.cuid_value.drop (1 + 6 + 4)) (id.cuid_fingerprint.take 4) (4 + 6 + 1) 4
    (by simp [hts6, hc4]) hfp4 (by simp; omega)]
  rw [List.drop_drop]
  rw [copy_into_at (['c'] ++ id.cuid_timestamp.take 6 ++ cuid_base36_render id.cuid_counter 4 '0'
      ++ id.cuid_fingerprint.take 4)
    (id.cuid_value.drop (1 + 6 + 4 + 4))
    (cuid_base36_render (mwc_read_random id.cuid_rnd1) 4 '0') (2 * 4 + 6 + 1) 4
    (by simp [hts6, hc4, hfp4]) hr14 (by simp; omega)]
  rw [List.drop_drop]
  rw [copy_into_at (['c'] ++ id.cuid_timestamp.take 6 ++ cuid_base36_render id.cuid_counter 4 '0'
      ++ id.cuid_fingerprint.take 4 ++ cuid_base36_render (mwc_read_random id.cuid_rnd1) 4 '0')
    (id.cuid_value.drop (1 + 6 + 4 + 4 + 4))
    (cuid_base36_render (mwc_read_random id.cuid_rnd2) 4 '0') (3 * 4 + 6 + 1) 4
    (by simp [hts6, hc4, hfp4, hr14]) hr24 (by simp; omega)]
  rw [List.drop_drop]
  simp [List.append_assoc]

theorem drop_all_append (X Y : List Char) (n : Nat) (h : X.length = n) : (X ++ Y).drop n = Y := by
  rw [List.drop_append_eq_append_drop, List.drop_eq_nil_of_le (by omega), h]
  simp

/-- A pure-mode context whose value buffer is currently a well-formed
rendering of its own components (with the terminator at byte 23). -/
def cuid_rendered (ctx : cuid_t) : Prop :=
  ctx.cuid_value = 'c' :: (ctx.cuid_timestamp.take 6
      ++ cuid_base36_render ctx.cuid_counter 4 '0'
      ++ ctx.cuid_fingerprint.take 4
      ++ cuid_base36_render (mwc_read_random ctx.cuid_rnd1) 4 '0'
      ++ cuid_base36_render (mwc_read_random ctx.cuid_rnd2) 4 '0'
      ++ [cuid_nul])
    ∧ ctx.cuid_timestamp.length = 6
    ∧ 4 ≤ ctx.cuid_fingerprint.length

theorem cuid_rendered_fp_take_length (ctx : cuid_t) (h : cuid_rendered ctx) :
    (ctx.cuid_fingerprint.take 4).length = 4 := by
  obtain ⟨-, -, hf⟩ := h
  simp
  omega

theorem cuid_rendered_value_length (ctx : cuid_t) (h : cuid_rendered ctx) :
    ctx.cuid_value.length = 24 := by
  have hf := cuid_rendered_fp_take_length ctx h
  obtain ⟨hval, hts, -⟩ := h
  rw [hval]
  simp [cuid_base36_render_length, hf]
  omega

theorem cuid_rendered_drop23 (ctx : cuid_t) (h : cuid_rendered ctx) :
    ctx.cuid_value.drop 23 = [cuid_nul] := by
  have hf := cuid_rendered_fp_take_length ctx h
  obtain ⟨hval, hts, -⟩ := h
  have hcons : ∀ (l : List Char) (a : Char), (a :: l).drop 23 = l.drop 22 := fun l a => rfl
  rw [hval, hcons]
  apply drop_all_append
  simp [cuid_base36_render_length, hf]
  omega

/-- `cuid_init` leaves the context well rendered. -/
theorem cuid_init_rendered (id : cuid_t) (ts : Nat) (hf : 4 ≤ id.cuid_fingerprint.length) :
    cuid_rendered (cuid_init id ts) := by
  have hspec := cuid_gen_value_string_spec
    { id with
      cuid_counter := cuid_init_counter id.cuid_counter
      cuid_rnd1 := mwc_init id.cuid_rnd1
      cuid_rnd2 := mwc_init id.cuid_rnd2
      cuid_timestamp := cuid_base36_render ts CUID_TIMESTAMP_LENGTH '0'
      cuid_value := List.replicate CUID_SIZE cuid_nul }
    (by simp [CUID_SIZE])
    (by simp [cuid_base36_render_length, CUID_TIMESTAMP_LENGTH])
    (by simpa using hf)
  refine ⟨?_, ?_, ?_⟩
  · exact hspec.trans rfl
  · exact cuid_base36_render_length ts 6 '0'
  · exact hf

/-- `cuid_next` preserves well-renderedness. -/
theorem cuid_next_rendered (ctx : cuid_t) (ts : Nat) (h : cuid_rendered ctx) :
    cuid_rendered (cuid_next ctx ts) := by
  have hlen := cuid_rendered_value_length ctx h
  have hdrop := cuid_rendered_drop23 ctx h
  have hf4 : 4 ≤ ctx.cuid_fingerprint.length := h.2.2
  have hspec := cuid_gen_value_string_spec
    { ctx with
      cuid_counter := cuid_inc_counter ctx.cuid_counter
      cuid_rnd1 := mwc_next_random ctx.cuid_rnd1
      cuid_rnd2 := mwc_next_random ctx.cuid_rnd2
      cuid_timestamp := cuid_base36_render ts CUID_TIMESTAMP_LENGTH '0' }
    (by simpa using hlen)
    (by simp [cuid_base36_render_length, CUID_TIMESTAMP_LENGTH])
    (by simpa using hf4)
  refine ⟨?_, ?_, ?_⟩
  · refine hspec.trans ?_
    show 'c' :: ((cuid_base36_render ts 6 '0').take 6
        ++ cuid_base36_render (cuid_inc_counter ctx.cuid_counter) 4 '0'
        ++ ctx.cuid_fingerprint.take 4
        ++ cuid_base36_render (mwc_read_random (mwc_next_random ctx.cuid_rnd1)) 4 '0'
        ++ cuid_base36_render (mwc_read_random (mwc_next_random ctx.cuid_rnd2)) 4 '0'
        ++ ctx.cuid_value.drop 23) = _
    rw [hdrop]
    exact rfl
  · exact cuid_base36_render_length ts 6 '0'
  · exact hf4

theorem cuid_next_foldl_rendered (tss : List Nat) :
    ∀ ctx : cuid_t, cuid_rendered ctx → cuid_rendered (tss.foldl cuid_next ctx) := by
  induction tss with
  | nil => intro ctx h; exact h
  | cons t rest ih =>
    intro ctx h
    exact ih (cuid_next ctx t) (cuid_next_rendered ctx t h)

theorem cuid_next_foldl_fingerprint (tss : List Nat) :
    ∀ ctx : cuid_t, (tss.foldl cuid_next ctx).cuid_fingerprint = ctx.cuid_fingerprint := by
  induction tss with
  | nil => intro ctx; rfl
  | cons t rest ih => intro ctx; exact ih (cuid_next ctx t)

theorem cuid_next_foldl_counter (tss : List Nat) :
    ∀ ctx : cuid_t, ctx.cuid_counter < 2 ^ 32 →
    (tss.foldl cuid_next ctx).cuid_counter = (ctx.cuid_counter + tss.length) % 2 ^ 32 := by
  induction tss with
  | nil =>
    intro ctx h
    simp
    omega
  | cons t rest ih =>
    intro ctx h
    have step : (cuid_next ctx t).cuid_counter = (ctx.cuid_counter + 1) % 2 ^ 32 := rfl
    have := ih (cuid_next ctx t) (by rw [step]; exact Nat.mod_lt _ (by norm_num))
    simp only [List.foldl_cons, this, step, Nat.mod_add_mod, List.length_cons]
    congr 1
    omega

theorem cuid_next_foldl_timestamp (tss : List Nat) :
    ∀ (ctx : cuid_t) (T : Nat), ctx.cuid_timestamp = cuid_base36_render T 6 '0' →
    (tss.foldl cuid_next ctx).cuid_timestamp =
      cuid_base36_render (tss.foldl (fun _ x => x) T) 6 '0' := by
  induction tss with
  | nil => intro ctx T h; exact h
  | cons t rest ih =>
    intro ctx T h
    simp only [List.foldl_cons]
    exact ih (cuid_next ctx t) t rfl

theorem cuid_create_fingerprint_take (fp : List Char) (hfp : 5 ≤ fp.length)
    (rand1 : Nat → Nat) (h1 : ∃ i, mwc_seed_ok rand1 i)
    (rand2 : Nat → Nat) (h2 : ∃ i, mwc_seed_ok rand2 i) :
    (cuid_create fp rand1 h1 rand2 h2).cuid_fingerprint.take 4 = fp.take 4 := by
  have h5 : (fp.take CUID_FINGERPRINT_SIZE).length = 5 := by
    simp [CUID_FINGERPRINT_SIZE]
    omega
  show (copy_into (List.replicate CUID_BASE36_RESULT_SIZE cuid_nul) 0
      (fp.take CUID_FINGERPRINT_SIZE)).take 4 = fp.take 4
  rw [copy_into_eq _ _ _ (by rw [h5]; simp [CUID_BASE36_RESULT_SIZE])]
  simp only [List.take_zero, List.nil_append, Nat.zero_add]
  rw [List.take_append_eq_append_take, h5]
  rw [List.take_take]
  norm_num [CUID_FINGERPRINT_SIZE]

theorem cuid_create_fingerprint_length (fp : List Char)
    (rand1 : Nat → Nat) (h1 : ∃ i, mwc_seed_ok rand1 i)
    (rand2 : Nat → Nat) (h2 : ∃ i, mwc_seed_ok rand2 i) :
    (cuid_create fp rand1 h1 rand2 h2).cuid_fingerprint.length = 16 := by
  simp [cuid_create, copy_into_length, CUID_BASE36_RESULT_SIZE]

/-- The word-size invariant of MWC states: carry below Marsaglia's bound
(both current and recorded) and all table words below `2^32`. -/
def mwc_inv (s : mwc_random_t) : Prop :=
  s.mwc_carry < MWC_C_MAX ∧ s.mwc_initial_carry < MWC_C_MAX ∧
    (∀ j, s.mwc_q j < 2 ^ 32) ∧ (∀ j, s.mwc_initial_q j < 2 ^ 32)

theorem mwc_create_inv (rand32 : Nat → Nat) (h : ∃ i, mwc_seed_ok rand32 i) :
    mwc_inv (mwc_create rand32 h) := by
  have hc : rand32 (Nat.find h) % 2 ^ 32 < MWC_C_MAX := Nat.find_spec h
  exact ⟨hc, hc, fun j => Nat.mod_lt _ (by norm_num), fun j => Nat.mod_lt _ (by norm_num)⟩

theorem mwc_init_inv (s : mwc_random_t) (h : mwc_inv s) : mwc_inv (mwc_init s) :=
  ⟨h.2.1, h.2.1, h.2.2.2, h.2.2.2⟩

theorem mwc_t_eq (q c : Nat) (hq : q < 2 ^ 32) (hc : c < 2 ^ 32) :
    (18782 * q + c) % 2 ^ 64 = 18782 * q + c := by
  apply Nat.mod_eq_of_lt
  have : 18782 * q ≤ 18782 * (2 ^ 32 - 1) := Nat.mul_le_mul_left _ (by omega)
  omega

theorem mwc_c1_le (q c : Nat) (hq : q < 2 ^ 32) (hc : c < 2 ^ 32) :
    (18782 * q + c) / 2 ^ 32 ≤ 18782 := by
  have hmul : 18782 * q ≤ 18782 * (2 ^ 32 - 1) := Nat.mul_le_mul_left _ (by omega)
  have h2 : (18782 * q + c) / 2 ^ 32 < 18783 := by
    rw [Nat.div_lt_iff_lt_mul (by norm_num : (0 : Nat) < 2 ^ 32)]
    omega
  omega

/-- One advance step never drives the carry above `18783`. -/
theorem mwc_next_random_carry_le (s : mwc_random_t)
    (hc : s.mwc_carry < 2 ^ 32) (hq : ∀ j, s.mwc_q j < 2 ^ 32) :
    (mwc_next_random s).mwc_carry ≤ 18783 := by
  have hqi := hq ⟨(s.mwc_current_cycle.val + 1) % 4096, Nat.mod_lt _ (by norm_num)⟩
  show (let t := (18782 * s.mwc_q ⟨(s.mwc_current_cycle.val + 1) % 4096,
      Nat.mod_lt _ (by norm_num)⟩ + s.mwc_carry) % 2 ^ 64
    let carry1 := t / 2 ^ 32
    let x1 := (t % 2 ^ 32 + carry1) % 2 ^ 32
    if x1 < carry1 then (carry1 + 1) % 2 ^ 32 else carry1) ≤ 18783
  rw [mwc_t_eq _ _ hqi hc]
  have hc1 := mwc_c1_le _ _ hqi hc
  dsimp only
  split
  · rw [Nat.mod_eq_of_lt (by omega)]
    omega
  · omega

theorem mwc_next_random_inv (s : mwc_random_t) (h : mwc_inv s) :
    mwc_inv (mwc_next_random s) := by
  obtain ⟨hc, hic, hq, hiq⟩ := h
  refine ⟨?_, hic, ?_, hiq⟩
  · have := mwc_next_random_carry_le s (by unfold MWC_C_MAX at hc; omega) hq
    unfold MWC_C_MAX
    omega
  · intro j
    show (if j = _ then _ else s.mwc_q j) < 2 ^ 32
    split
    · exact Nat.mod_lt _ (by norm_num)
    · exact hq j

theorem mwc_reachable_inv (s0 s : mwc_random_t) (h : MwcReachable s0 s) (h0 : mwc_inv s0) :
    mwc_inv s := by
  induction h with
  | refl => exact h0
  | advance _ ih => exact mwc_next_random_inv _ ih
  | reset _ ih => exact mwc_init_inv _ ih

/-- The advance step exactly as the spec describes it: with the cursor
already moved to `i`, `t = 18782 * Q[i] + carry` (fitting 64 bits),
`carry1 = t >> 32`, `x = low32(t) + carry1` as a 32-bit sum, the
carry-propagation correction when that sum wrapped, the store
`Q[i] = 0xFFFFFFFE - x` (32-bit subtraction), all other table entries
untouched, and the following read returning the stored word. -/
def mwc_next_random_step_prop (s : mwc_random_t) : Prop :=
  let i : Fin 4096 := ⟨(s.mwc_current_cycle.val + 1) % 4096, Nat.mod_lt _ (by norm_num)⟩
  let t : Nat := 18782 * s.mwc_q i + s.mwc_carry
  let carry1 : Nat := t / 2 ^ 32
  let x1 : Nat := (t % 2 ^ 32 + carry1) % 2 ^ 32
  let x : Nat := if x1 < carry1 then x1 + 1 else x1
  (mwc_next_random s).mwc_current_cycle = i ∧
    (mwc_next_random s).mwc_carry = (if x1 < carry1 then carry1 + 1 else carry1) ∧
    (mwc_next_random s).mwc_q i = (0xfffffffe + 2 ^ 32 - x) % 2 ^ 32 ∧
    (∀ j, j ≠ i → (mwc_next_random s).mwc_q j = s.mwc_q j) ∧
    mwc_read_random (mwc_next_random s) = (mwc_next_random s).mwc_q i

/-- C4: under the word-size bounds that every reachable state satisfies,
one `mwc_next_random` step computes exactly the spec's advance
description — cursor' = (cursor + 1) mod 4096, `t = 18782 * Q[cursor'] +
carry` fitting 64 bits, `carry' = t >> 32`, `x = low32(t) + carry'` with
the carry-propagation correction, the store `Q[cursor'] = 0xFFFFFFFE - x`
(32-bit subtraction), and the subsequent read returns the stored word. -/
theorem mwc_next_random_spec (s : mwc_random_t) (hc : s.mwc_carry < 2 ^ 32)
    (hq : ∀ j, s.mwc_q j < 2 ^ 32) : mwc_next_random_step_prop s := by
  have hqi := hq ⟨(s.mwc_current_cycle.val + 1) % 4096, Nat.mod_lt _ (by norm_num)⟩
  have hc1 := mwc_c1_le _ _ hqi hc
  have ht := mwc_t_eq _ _ hqi hc
  unfold mwc_next_random_step_prop mwc_next_random mwc_read_random
  dsimp only
  rw [ht]
  generalize hT : 18782 * s.mwc_q ⟨(s.mwc_current_cycle.val + 1) % 4096,
    Nat.mod_lt _ (by norm_num)⟩ + s.mwc_carry = T at hc1 ⊢
  refine ⟨rfl, ?_, ?_, ?_, rfl⟩
  · split_ifs with h1
    · exact Nat.mod_eq_of_lt (by omega)
    · rfl
  · split_ifs with hi h1 h2
    · have hx : ((T % 2 ^ 32 + T / 2 ^ 32) % 2 ^ 32 + 1) % 2 ^ 32 =
          (T % 2 ^ 32 + T / 2 ^ 32) % 2 ^ 32 + 1 :=
        Nat.mod_eq_of_lt (by omega)
      rw [hx]
    · rfl
    · exact absurd rfl hi
    · exact absurd rfl hi
  · intro j hj
    rw [if_neg hj]

theorem set_last_of_append (P : List Char) (a c : Char) (n : Nat) (h : P.length = n) :
    (P ++ [a]).set n c = P ++ [c] := by
  rw [list_set_eq_take_cons_drop _ _ _ (by simp; omega)]
  have h1 : (P ++ [a]).take n = P := by
    rw [List.take_append_eq_append_take, h]
    simp [List.take_of_length_le (le_of_eq h)]
  have h2 : (P ++ [a]).drop (n + 1) = [] :=
    List.drop_eq_nil_of_le (by simp; omega)
  rw [h1, h2]

theorem copy_into_zero (dst src : List Char) (h : src.length ≤ dst.length) :
    copy_into dst 0 src = src ++ dst.drop src.length := by
  rw [copy_into_eq _ _ _ (by omega)]
  simp

/-- `cuid_get_fingerprint` characterised: returns length `2 + 2 = 4` and
writes the two width-2 base36 blocks followed by a terminator, leaving
the rest of the buffer untouched. -/
theorem cuid_get_fingerprint_spec (words : List Nat) (pid : Nat) (res : List Char)
    (h : 5 ≤ res.length) :
    (cuid_get_fingerprint words pid res).1 = 4 ∧
    (cuid_get_fingerprint words pid res).2 =
      cuid_base36_render (cuid_hostname_number words) 2 '0'
        ++ (cuid_base36_render pid 2 '0' ++ [cuid_nul]) ++ res.drop 5 := by
  have ha : (cuid_base36_render (cuid_hostname_number words) 2 '0').length = 2 :=
    cuid_base36_render_length _ _ _
  have hb : (cuid_base36_render pid 2 '0').length = 2 :=
    cuid_base36_render_length _ _ _
  refine ⟨rfl, ?_⟩
  show copy_into
      (copy_into res 0 (cuid_base36_render (cuid_hostname_number words) 2 '0' ++ [cuid_nul]))
      2 (cuid_base36_render pid 2 '0' ++ [cuid_nul]) = _
  rw [copy_into_zero res _ (by simp [ha]; omega)]
  rw [show (cuid_base36_render (cuid_hostname_number words) 2 '0' ++ [cuid_nul]).length = 3
    from by simp [ha]]
  rw [show (cuid_base36_render (cuid_hostname_number words) 2 '0' ++ [cuid_nul]) ++ res.drop 3
    = cuid_base36_render (cuid_hostname_number words) 2 '0' ++ ([cuid_nul] ++ res.drop 3)
    from by simp]
  rw [copy_into_at _ _ _ 2 3 ha (by simp [hb]) (by simp; omega)]
  rw [show ([cuid_nul] ++ res.drop 3).drop 3 = res.drop 5 from by
    show (res.drop 3).drop 2 = res.drop 5
    simp [List.drop_drop]]

/-- The quick-mode `cuid` characterised: with the default fingerprint
provider it returns length 23 and fills the caller's 24-byte buffer with
the full fixed-offset rendering, terminator at byte 23. -/
theorem cuid_quick_spec (ts counter : Nat) (words : List Nat) (pid : Nat) (r1 r2 : Nat)
    (res : List Char) (hres : res.length = 24) :
    (cuid ts counter words pid r1 r2 res).1 = 23 ∧
    (cuid ts counter words pid r1 r2 res).2 =
      'c' :: (cuid_base36_render ts 6 '0' ++ cuid_base36_render counter 4 '0'
        ++ (cuid_base36_render (cuid_hostname_number words) 2 '0' ++ cuid_base36_render pid 2 '0')
        ++ cuid_base36_render r1 4 '0' ++ cuid_base36_render r2 4 '0' ++ [cuid_nul]) := by
  have hT : (cuid_base36_render ts 6 '0').length = 6 := cuid_base36_render_length _ _ _
  have hC : (cuid_base36_render counter 4 '0').length = 4 := cuid_base36_render_length _ _ _
  have hFa : (cuid_base36_render (cuid_hostname_number words) 2 '0').length = 2 := cuid_base36_render_length _ _ _
  have hFb : (cuid_base36_render pid 2 '0').length = 2 := cuid_base36_render_length _ _ _
  have hR1 : (cuid_base36_render r1 4 '0').length = 4 := cuid_base36_render_length _ _ _
  have hR2 : (cuid_base36_render r2 4 '0').length = 4 := cuid_base36_render_length _ _ _
  have hdrop24 : res.drop 24 = [] := List.drop_eq_nil_of_le (by omega)
  have hfp := cuid_get_fingerprint_spec words pid
    (List.replicate CUID_FINGERPRINT_SIZE cuid_nul) (by simp [CUID_FINGERPRINT_SIZE])
  have hfp2 : (cuid_get_fingerprint words pid
      (List.replicate CUID_FINGERPRINT_SIZE cuid_nul)).2 =
      cuid_base36_render (cuid_hostname_number words) 2 '0' ++ (cuid_base36_render pid 2 '0' ++ [cuid_nul]) := by
    rw [hfp.2]
    simp [CUID_FINGERPRINT_SIZE]
  constructor
  · show 1 + 6 + 4 + (cuid_get_fingerprint words pid
      (List.replicate CUID_FINGERPRINT_SIZE cuid_nul)).1 + 4 + 4 = 23
    rw [hfp.1]
  · show (copy_into (copy_into (copy_into (copy_into (copy_into (res.set 0 'c') 1
        (cuid_base36_render ts 6 '0' ++ [cuid_nul])) (1 + 6)
        (cuid_base36_render counter 4 '0' ++ [cuid_nul])) (1 + 6 + 4)
        (cuid_get_fingerprint words pid (List.replicate CUID_FINGERPRINT_SIZE cuid_nul)).2)
        (1 + 6 + 4 + (cuid_get_fingerprint words pid
          (List.replicate CUID_FINGERPRINT_SIZE cuid_nul)).1)
        (cuid_base36_render r1 4 '0' ++ [cuid_nul]))
        (1 + 6 + 4 + (cuid_get_fingerprint words pid
          (List.replicate CUID_FINGERPRINT_SIZE cuid_nul)).1 + 4)
        (cuid_base36_render r2 4 '0' ++ [cuid_nul])).set (CUID_SIZE - 1) cuid_nul = _
    rw [hfp.1, hfp2]
    rw [show res.set 0 'c' = ['c'] ++ res.drop 1 from by
      rw [list_set_eq_take_cons_drop res 0 'c' (by omega)]
      simp]
    rw [copy_into_at ['c'] (res.drop 1) (cuid_base36_render ts 6 '0' ++ [cuid_nul]) 1 7
      (by simp) (by simp [hT]) (by simp; omega)]
    rw [show (['c'] ++ (cuid_base36_render ts 6 '0' ++ [cuid_nul])) ++ (res.drop 1).drop 7
      = (['c'] ++ cuid_base36_render ts 6 '0') ++ ([cuid_nul] ++ res.drop 8) from by
        simp [List.drop_drop, List.append_assoc]]
    rw [copy_into_at (['c'] ++ cuid_base36_render ts 6 '0') ([cuid_nul] ++ res.drop 8)
      (cuid_base36_render counter 4 '0' ++ [cuid_nul]) (1 + 6) 5 (by simp [hT]) (by simp [hC]) (by simp; omega)]
    rw [show ((['c'] ++ cuid_base36_render ts 6 '0') ++ (cuid_base36_render counter 4 '0' ++ [cuid_nul])) ++ ([cuid_nul] ++ res.drop 8).drop 5
      = (['c'] ++ cuid_base36_render ts 6 '0' ++ cuid_base36_render counter 4 '0') ++ ([cuid_nul] ++ res.drop 12) from by
        simp [List.drop_drop, List.append_assoc]]
    rw [copy_into_at (['c'] ++ cuid_base36_render ts 6 '0' ++ cuid_base36_render counter 4 '0') ([cuid_nul] ++ res.drop 12)
      (cuid_base36_render (cuid_hostname_number words) 2 '0' ++ (cuid_base36_render pid 2 '0' ++ [cuid_nul])) (1 + 6 + 4) 5
      (by simp [hT, hC]) (by simp [hFa, hFb]) (by simp; omega)]
    rw [show ((['c'] ++ cuid_base36_render ts 6 '0' ++ cuid_base36_render counter 4 '0') ++ (cuid_base36_render (cuid_hostname_number words) 2 '0' ++ (cuid_base36_render pid 2 '0' ++ [cuid_nul]))) ++ ([cuid_nul] ++ res.drop 12).drop 5
      = (['c'] ++ cuid_base36_render ts 6 '0' ++ cuid_base36_render counter 4 '0' ++ (cuid_base36_render (cuid_hostname_number words) 2 '0' ++ cuid_base36_render pid 2 '0')) ++ ([cuid_nul] ++ res.drop 16) from by
        simp [List.drop_drop, List.append_assoc]]
    rw [copy_into_at (['c'] ++ cuid_base36_render ts 6 '0' ++ cuid_base36_render counter 4 '0' ++ (cuid_base36_render (cuid_hostname_number words) 2 '0' ++ cuid_base36_render pid 2 '0')) ([cuid_nul] ++ res.drop 16)
      (cuid_base36_render r1 4 '0' ++ [cuid_nul]) (1 + 6 + 4 + 4) 5
      (by simp [hT, hC, hFa, hFb]) (by simp [hR1]) (by simp; omega)]
    rw [show ((['c'] ++ cuid_base36_render ts 6 '0' ++ cuid_base36_render counter 4 '0' ++ (cuid_base36_render (cuid_hostname_number words) 2 '0' ++ cuid_base36_render pid 2 '0')) ++ (cuid_base36_render r1 4 '0' ++ [cuid_nul])) ++ ([cuid_nul] ++ res.drop 16).drop 5
      = (['c'] ++ cuid_base36_render ts 6 '0' ++ cuid_base36_render counter 4 '0' ++ (cuid_base36_render (cuid_hostname_number words) 2 '0' ++ cuid_base36_render pid 2 '0') ++ cuid_base36_render r1 4 '0') ++ ([cuid_nul] ++ res.drop 20) from by
        simp [List.drop_drop, List.append_assoc]]
    rw [copy_into_at (['c'] ++ cuid_base36_render ts 6 '0' ++ cuid_base36_render counter 4 '0' ++ (cuid_base36_render (cuid_hostname_number words) 2 '0' ++ cuid_base36_render pid 2 '0') ++ cuid_base36_render r1 4 '0') ([cuid_nul] ++ res.drop 20)
      (cuid_base36_render r2 4 '0' ++ [cuid_nul]) (1 + 6 + 4 + 4 + 4) 5
      (by simp [hT, hC, hFa, hFb, hR1]) (by simp [hR2]) (by simp; omega)]
    rw [show ((['c'] ++ cuid_base36_render ts 6 '0' ++ cuid_base36_render counter 4 '0' ++ (cuid_base36_render (cuid_hostname_number words) 2 '0' ++ cuid_base36_render pid 2 '0') ++ cuid_base36_render r1 4 '0') ++ (cuid_base36_render r2 4 '0' ++ [cuid_nul])) ++ ([cuid_nul] ++ res.drop 20).drop 5
      = (['c'] ++ cuid_base36_render ts 6 '0' ++ cuid_base36_render counter 4 '0' ++ (cuid_base36_render (cuid_hostname_number words) 2 '0' ++ cuid_base36_render pid 2 '0') ++ cuid_base36_render r1 4 '0' ++ cuid_base36_render r2 4 '0') ++ [cuid_nul] from by
        simp [List.drop_drop, List.append_assoc, hdrop24]]
    rw [set_last_of_append _ cuid_nul cuid_nul (CUID_SIZE - 1)
      (by simp [hT, hC, hFa, hFb, hR1, hR2, CUID_SIZE])]
    simp [List.append_assoc]

theorem take_of_append_eq (P Q : List Char) (n : Nat) (h : P.length = n) : (P ++ Q).take n = P := by
  rw [List.take_append_eq_append_take, h]
  simp [List.take_of_length_le (le_of_eq h)]

/-- C3 counterexample: the claim quantifies over every width, but at width
16 (the first width at or above `CUID_BASE36_RESULT_SIZE`) the C function
does not produce a string at all — it takes the fatal `CUID_EXIT` branch,
modelled as `none`. -/
theorem cuid_base36_pad_width16_fatal : cuid_base36_pad 1234567890 16 '0' = none := rfl

/-- C3 (amended to widths at most 15, which is all the fatal guard
admits): `cuid_base36_pad` succeeds, its buffer is exactly `width` digits,
left-padded when the plain encoding is shorter, unchanged when equal, and
right-truncated to the least-significant `width` digits when longer; in
particular the padded encoding of 1234567890 at width 4 is `"12oi"`. -/
theorem cuid_base36_pad_spec (n width : Nat) (pad_char : Char) (hw : width < 16) :
    cuid_base36_pad n width pad_char = some (cuid_base36_render n width pad_char) ∧
    (cuid_base36_render n width pad_char).length = width ∧
    ((cuid_base36 n).length < width → cuid_base36_render n width pad_char =
      List.replicate (width - (cuid_base36 n).length) pad_char ++ cuid_base36 n) ∧
    ((cuid_base36 n).length = width → cuid_base36_render n width pad_char = cuid_base36 n) ∧
    (width < (cuid_base36 n).length → cuid_base36_render n width pad_char =
      (cuid_base36 n).drop ((cuid_base36 n).length - width)) ∧
    cuid_base36_pad 1234567890 4 '0' = some ("12oi".toList) := by
  refine ⟨?_, cuid_base36_render_length n width pad_char, ?_, ?_, ?_, by decide⟩
  · rw [cuid_base36_pad, if_neg (by simp [CUID_BASE36_RESULT_SIZE]; omega)]
  · intro h
    rw [cuid_base36_render]
    simp only [h, if_pos]
  · intro h
    rw [cuid_base36_render]
    simp only [h]
    simp
  · intro h
    rw [cuid_base36_render]
    rw [if_neg (by omega), if_pos (by omega)]

theorem cuid_base36_pad_spec_witness :
    cuid_base36_pad 1234567890 4 '0' = some (cuid_base36_render 1234567890 4 '0') ∧
    (cuid_base36_render 1234567890 4 '0').length = 4 ∧
    ((cuid_base36 1234567890).length < 4 → cuid_base36_render 1234567890 4 '0' =
      List.replicate (4 - (cuid_base36 1234567890).length) '0' ++ cuid_base36 1234567890) ∧
    ((cuid_base36 1234567890).length = 4 → cuid_base36_render 1234567890 4 '0' =
      cuid_base36 1234567890) ∧
    (4 < (cuid_base36 1234567890).length → cuid_base36_render 1234567890 4 '0' =
      (cuid_base36 1234567890).drop ((cuid_base36 1234567890).length - 4)) ∧
    cuid_base36_pad 1234567890 4 '0' = some ("12oi".toList) :=
  cuid_base36_pad_spec 1234567890 4 '0' (by norm_num)

/-- C7: `cuid_base36_pad` takes its fatal error branch exactly when the
requested width exceeds the 15 usable digits of the scratch buffer
(`width ≥ CUID_BASE36_RESULT_SIZE = 16`), and the widths the assemblers
pass — 6 for the timestamp, 4 for counter and random blocks, 2 for each
fingerprint half — always fall in the non-fatal range, where the call
returns the rendered block. -/
theorem cuid_base36_pad_error_iff :
    (∀ (n width : Nat) (c : Char), cuid_base36_pad n width c = none ↔ 15 < width) ∧
    (∀ (n : Nat) (c : Char),
      cuid_base36_pad n 6 c = some (cuid_base36_render n 6 c) ∧
      cuid_base36_pad n 4 c = some (cuid_base36_render n 4 c) ∧
      cuid_base36_pad n 2 c = some (cuid_base36_render n 2 c)) := by
  constructor
  · intro n width c
    rw [cuid_base36_pad]
    constructor
    · intro h
      by_contra hlt
      rw [if_neg (by simp [CUID_BASE36_RESULT_SIZE]; omega)] at h
      exact Option.noConfusion h
    · intro h
      rw [if_pos (by simp [CUID_BASE36_RESULT_SIZE]; omega)]
  · intro n c
    refine ⟨?_, ?_, ?_⟩ <;>
      rw [cuid_base36_pad, if_neg (by simp [CUID_BASE36_RESULT_SIZE])]

/-- A concrete MWC state used to witness the step theorems. -/
def mwc_probe_state : mwc_random_t :=
  { mwc_q := fun _ => 1
    mwc_carry := 5
    mwc_current_cycle := ⟨0, by norm_num⟩
    mwc_initial_carry := 5
    mwc_initial_q := fun _ => 1 }

theorem mwc_next_random_spec_witness : mwc_next_random_step_prop mwc_probe_state :=
  mwc_next_random_spec mwc_probe_state (by norm_num [mwc_probe_state])
    (fun j => by norm_num [mwc_probe_state])

/-- A concrete system-random stream (constantly zero) and the proof that
its first draw already satisfies the rejection-sampling bound. -/
def mwc_const_stream : Nat → Nat := fun _ => 0

theorem mwc_const_stream_seed : ∃ i, mwc_seed_ok mwc_const_stream i :=
  ⟨0, by norm_num [mwc_seed_ok, mwc_const_stream, MWC_C_MAX]⟩

/-- C5: from any state reachable from a created state by advances and
resets, resetting and then advancing `N` times reads the same value as
resetting the created state itself and advancing `N` times — the initial
snapshot is never altered, so replay is deterministic. -/
theorem mwc_reset_replay (rand32 : Nat → Nat) (h : ∃ i, mwc_seed_ok rand32 i)
    (s : mwc_random_t) (N : Nat) (hs : MwcReachable (mwc_create rand32 h) s) :
    mwc_read_random (mwc_advanceN N (mwc_init s)) =
      mwc_read_random (mwc_advanceN N (mwc_init (mwc_create rand32 h))) := by
  obtain ⟨hc, hq⟩ := mwc_reachable_initial _ s hs
  rw [mwc_init_eq_of_initial_eq s (mwc_create rand32 h) hc hq]

theorem mwc_reset_replay_witness :
    mwc_read_random (mwc_advanceN 2 (mwc_init (mwc_next_random
      (mwc_create mwc_const_stream mwc_const_stream_seed)))) =
    mwc_read_random (mwc_advanceN 2 (mwc_init
      (mwc_create mwc_const_stream mwc_const_stream_seed))) :=
  mwc_reset_replay mwc_const_stream mwc_const_stream_seed _ 2
    (MwcReachable.advance MwcReachable.refl)

/-- C9: the Marsaglia carry bound `carry < MWC_C_MAX` is an invariant of
the whole MWC state machine — creation rejection-samples the carry below
the bound, reset restores the recorded (bounded) initial carry, and each
advance step produces a carry of at most 18783. -/
theorem mwc_reachable_carry_lt (rand32 : Nat → Nat) (h : ∃ i, mwc_seed_ok rand32 i)
    (s : mwc_random_t) (hs : MwcReachable (mwc_create rand32 h) s) :
    s.mwc_carry < MWC_C_MAX :=
  (mwc_reachable_inv _ s hs (mwc_create_inv rand32 h)).1

theorem mwc_reachable_carry_lt_witness :
    (mwc_next_random (mwc_init (mwc_create mwc_const_stream
      mwc_const_stream_seed))).mwc_carry < MWC_C_MAX :=
  mwc_reachable_carry_lt mwc_const_stream mwc_const_stream_seed _
    (MwcReachable.advance (MwcReachable.reset MwcReachable.refl))

/-- C8: the default fingerprint provider returns length `2 + 2 = 4` and
writes exactly the width-2 zero-padded base36 of the 64-bit sum of the
host-name words at `[0..1]` and the width-2 zero-padded base36 of the pid
at `[2..3]`; being a pure function of the host words and the pid, every
call with the same system values returns this same output. -/
theorem cuid_get_fingerprint_layout (words : List Nat) (pid : Nat) (res : List Char)
    (h : 5 ≤ res.length) :
    (cuid_get_fingerprint words pid res).1 = 4 ∧
    ((cuid_get_fingerprint words pid res).2).take 2 =
      cuid_base36_render (cuid_hostname_number words) 2 '0' ∧
    (((cuid_get_fingerprint words pid res).2).drop 2).take 2 =
      cuid_base36_render pid 2 '0' ∧
    ((cuid_get_fingerprint words pid res).2).take 4 =
      cuid_base36_render (cuid_hostname_number words) 2 '0'
        ++ cuid_base36_render pid 2 '0' ∧
    (((cuid_get_fingerprint words pid res).2).take 4).length = 4 := by
  have ha : (cuid_base36_render (cuid_hostname_number words) 2 '0').length = 2 :=
    cuid_base36_render_length _ _ _
  have hb : (cuid_base36_render pid 2 '0').length = 2 :=
    cuid_base36_render_length _ _ _
  obtain ⟨h1, h2⟩ := cuid_get_fingerprint_spec words pid res h
  have hshape : (cuid_get_fingerprint words pid res).2 =
      cuid_base36_render (cuid_hostname_number words) 2 '0'
        ++ (cuid_base36_render pid 2 '0' ++ ([cuid_nul] ++ res.drop 5)) := by
    rw [h2]
    simp [List.append_assoc]
  refine ⟨h1, ?_, ?_, ?_, ?_⟩
  · rw [hshape]
    exact take_of_append_eq _ _ 2 ha
  · rw [hshape, drop_all_append _ _ 2 ha]
    exact take_of_append_eq _ _ 2 hb
  · rw [hshape]
    rw [show cuid_base36_render (cuid_hostname_number words) 2 '0'
        ++ (cuid_base36_render pid 2 '0' ++ ([cuid_nul] ++ res.drop 5))
      = (cuid_base36_render (cuid_hostname_number words) 2 '0'
        ++ cuid_base36_render pid 2 '0') ++ ([cuid_nul] ++ res.drop 5) from by
        simp [List.append_assoc]]
    exact take_of_append_eq _ _ 4 (by simp [ha, hb])
  · rw [hshape]
    simp [ha, hb]
    omega

theorem cuid_get_fingerprint_layout_witness :
    (cuid_get_fingerprint [] 0 (List.replicate 5 cuid_nul)).1 = 4 ∧
    ((cuid_get_fingerprint [] 0 (List.replicate 5 cuid_nul)).2).take 2 =
      cuid_base36_render (cuid_hostname_number []) 2 '0' ∧
    (((cuid_get_fingerprint [] 0 (List.replicate 5 cuid_nul)).2).drop 2).take 2 =
      cuid_base36_render 0 2 '0' ∧
    ((cuid_get_fingerprint [] 0 (List.replicate 5 cuid_nul)).2).take 4 =
      cuid_base36_render (cuid_hostname_number []) 2 '0' ++ cuid_base36_render 0 2 '0' ∧
    (((cuid_get_fingerprint [] 0 (List.replicate 5 cuid_nul)).2).take 4).length = 4 :=
  cuid_get_fingerprint_layout [] 0 (List.replicate 5 cuid_nul) (by simp)

/-- C10: with the default fingerprint provider, the quick-mode `cuid`
always returns length 23 and leaves the caller's 24-byte buffer holding a
NUL-terminated 23-character string (terminator at index 23), for every
timestamp, counter and random collaborator value. -/
theorem cuid_quick_length (ts cnt : Nat) (words : List Nat) (pid : Nat) (r1 r2 : Nat)
    (res : List Char) (hres : res.length = 24) :
    (cuid ts cnt words pid r1 r2 res).1 = 23 ∧
    ((cuid ts cnt words pid r1 r2 res).2).length = 24 ∧
    ((cuid ts cnt words pid r1 r2 res).2).drop 23 = [cuid_nul] := by
  obtain ⟨h1, h2⟩ := cuid_quick_spec ts cnt words pid r1 r2 res hres
  refine ⟨h1, ?_, ?_⟩
  · rw [h2]
    simp [cuid_base36_render_length]
  · rw [h2]
    have hcons : ∀ (l : List Char) (a : Char), (a :: l).drop 23 = l.drop 22 := fun l a => rfl
    rw [hcons]
    apply drop_all_append
    simp [cuid_base36_render_length]

theorem cuid_quick_length_witness :
    (cuid 0 0 [] 0 0 0 (List.replicate 24 'x')).1 = 23 ∧
    ((cuid 0 0 [] 0 0 0 (List.replicate 24 'x')).2).length = 24 ∧
    ((cuid 0 0 [] 0 0 0 (List.replicate 24 'x')).2).drop 23 = [cuid_nul] :=
  cuid_quick_length 0 0 [] 0 0 0 (List.replicate 24 'x') (by simp)

theorem take23_shape (A B F R1v R2v rest : List Char) (hA : A.length = 6) (hB : B.length = 4)
    (hF : F.length = 4) (hR1 : R1v.length = 4) (hR2 : R2v.length = 4) :
    ('c' :: (A ++ B ++ F ++ R1v ++ R2v ++ rest)).take 23 =
      'c' :: (A ++ B ++ F ++ R1v ++ R2v) := by
  show 'c' :: ((A ++ B ++ F ++ R1v ++ R2v ++ rest).take 22) = _
  congr 1
  rw [show A ++ B ++ F ++ R1v ++ R2v ++ rest
    = (A ++ B ++ F ++ R1v ++ R2v) ++ rest from by simp [List.append_assoc]]
  exact take_of_append_eq _ _ 22 (by simp [hA, hB, hF, hR1, hR2])

theorem take15_shape (A B F R1v R2v rest : List Char) (hA : A.length = 6) (hB : B.length = 4)
    (hF : F.length = 4) :
    ('c' :: (A ++ B ++ F ++ R1v ++ R2v ++ rest)).take 15 = 'c' :: (A ++ B ++ F) := by
  show 'c' :: ((A ++ B ++ F ++ R1v ++ R2v ++ rest).take 14) = _
  congr 1
  rw [show A ++ B ++ F ++ R1v ++ R2v ++ rest
    = (A ++ B ++ F) ++ (R1v ++ (R2v ++ rest)) from by simp [List.append_assoc]]
  exact take_of_append_eq _ _ 14 (by simp [hA, hB, hF])

/-- C6: given the same timestamp, counter value, 4 fingerprint bytes and
two random values, the quick-mode `cuid` and the pure-mode rendering
(`cuid_gen_value_string` on a context whose timestamp block is stamped
with the same timestamp) produce the identical 23-character string. -/
theorem cuid_mode_equivalence (ts cnt r1 r2 : Nat) (words : List Nat) (pid : Nat)
    (res : List Char) (hres : res.length = 24) (ctx : cuid_t)
    (hv : ctx.cuid_value.length = 24)
    (hts : ctx.cuid_timestamp = cuid_base36_render ts 6 '0')
    (hcnt : ctx.cuid_counter = cnt)
    (hfp : ctx.cuid_fingerprint.take 4 =
      cuid_base36_render (cuid_hostname_number words) 2 '0' ++ cuid_base36_render pid 2 '0')
    (hr1 : mwc_read_random ctx.cuid_rnd1 = r1) (hr2 : mwc_read_random ctx.cuid_rnd2 = r2) :
    ((cuid ts cnt words pid r1 r2 res).2).take 23 =
      ((cuid_gen_value_string ctx).cuid_value).take 23 := by
  have hFlen : (ctx.cuid_fingerprint.take 4).length = 4 := by
    rw [hfp]
    simp [cuid_base36_render_length]
  have hfpl : 4 ≤ ctx.cuid_fingerprint.length := by
    simp at hFlen
    omega
  obtain ⟨-, h2⟩ := cuid_quick_spec ts cnt words pid r1 r2 res hres
  have hgen := cuid_gen_value_string_spec ctx hv
    (by rw [hts, cuid_base36_render_length]) hfpl
  rw [h2, hgen, hts, hcnt, hr1, hr2]
  rw [List.take_of_length_le (le_of_eq (cuid_base36_render_length ts 6 '0'))]
  rw [take23_shape _ _ _ _ _ _ (cuid_base36_render_length _ _ _)
    (cuid_base36_render_length _ _ _) (by simp [cuid_base36_render_length])
    (cuid_base36_render_length _ _ _) (cuid_base36_render_length _ _ _)]
  rw [take23_shape _ _ _ _ _ _ (cuid_base36_render_length _ _ _)
    (cuid_base36_render_length _ _ _) hFlen
    (cuid_base36_render_length _ _ _) (cuid_base36_render_length _ _ _)]
  rw [hfp]

/-- A concrete pure-mode context used to witness the mode-equivalence
theorem. -/
def cuid_probe_ctx : cuid_t :=
  { cuid_fingerprint := "0000".toList
    cuid_counter := 9
    cuid_counter_str := []
    cuid_rnd1 := mwc_probe_state
    cuid_rnd2 := mwc_probe_state
    cuid_rnd1_str := []
    cuid_rnd2_str := []
    cuid_value := List.replicate 24 cuid_nul
    cuid_timestamp := cuid_base36_render 7 6 '0' }

theorem cuid_mode_equivalence_witness :
    ((cuid 7 9 [] 0 1 1 (List.replicate 24 'x')).2).take 23 =
      ((cuid_gen_value_string cuid_probe_ctx).cuid_value).take 23 :=
  cuid_mode_equivalence 7 9 1 1 [] 0 (List.replicate 24 'x') (by simp)
    cuid_probe_ctx (by simp [cuid_probe_ctx]) rfl rfl (by decide) rfl rfl

/-- C2: every pure-mode context built by `cuid_create`, one `cuid_init`
and any number of `cuid_next` steps reads out exactly the 24-byte buffer
`'c'`, the 6-wide padded timestamp of the last stamped argument, the
4-wide padded counter (the number of advances, mod `2^32`), the 4
fingerprint bytes verbatim, the two 4-wide padded random reads, and the
terminator at byte 23. -/
theorem cuid_pure_layout (fp : List Char) (hfp : 5 ≤ fp.length)
    (rand1 : Nat → Nat) (h1 : ∃ i, mwc_seed_ok rand1 i)
    (rand2 : Nat → Nat) (h2 : ∃ i, mwc_seed_ok rand2 i)
    (ts0 : Nat) (tss : List Nat) (ctx : cuid_t)
    (hctx : ctx = tss.foldl cuid_next (cuid_init (cuid_create fp rand1 h1 rand2 h2) ts0)) :
    cuid_read ctx = 'c' :: (cuid_base36_render (tss.foldl (fun _ x => x) ts0) 6 '0'
      ++ cuid_base36_render (tss.length % 2 ^ 32) 4 '0'
      ++ fp.take 4
      ++ cuid_base36_render (mwc_read_random ctx.cuid_rnd1) 4 '0'
      ++ cuid_base36_render (mwc_read_random ctx.cuid_rnd2) 4 '0'
      ++ [cuid_nul]) ∧
    (cuid_read ctx).length = 24 := by
  subst hctx
  have hcfl : (cuid_create fp rand1 h1 rand2 h2).cuid_fingerprint.length = 16 :=
    cuid_create_fingerprint_length fp rand1 h1 rand2 h2
  have hbase : cuid_rendered (cuid_init (cuid_create fp rand1 h1 rand2 h2) ts0) :=
    cuid_init_rendered _ ts0 (by rw [hcfl]; norm_num)
  have hrend := cuid_next_foldl_rendered tss _ hbase
  have hvlen := cuid_rendered_value_length _ hrend
  have hread : cuid_read (tss.foldl cuid_next
      (cuid_init (cuid_create fp rand1 h1 rand2 h2) ts0)) =
      (tss.foldl cuid_next (cuid_init (cuid_create fp rand1 h1 rand2 h2) ts0)).cuid_value := by
    rw [cuid_read]
    exact List.take_of_length_le (by rw [hvlen]; norm_num [CUID_SIZE])
  obtain ⟨hval, hts, hfl⟩ := hrend
  have htsc := cuid_next_foldl_timestamp tss
    (cuid_init (cuid_create fp rand1 h1 rand2 h2) ts0) ts0 rfl
  have hb0 : (cuid_init (cuid_create fp rand1 h1 rand2 h2) ts0).cuid_counter = 0 := rfl
  have hcnt := cuid_next_foldl_counter tss
    (cuid_init (cuid_create fp rand1 h1 rand2 h2) ts0) (by rw [hb0]; norm_num)
  rw [hb0, Nat.zero_add] at hcnt
  have hfpc := cuid_next_foldl_fingerprint tss
    (cuid_init (cuid_create fp rand1 h1 rand2 h2) ts0)
  constructor
  · rw [hread, hval, htsc]
    rw [List.take_of_length_le (le_of_eq (cuid_base36_render_length _ 6 '0'))]
    rw [hcnt, hfpc]
    rw [show (cuid_init (cuid_create fp rand1 h1 rand2 h2) ts0).cuid_fingerprint
      = (cuid_create fp rand1 h1 rand2 h2).cuid_fingerprint from rfl]
    rw [cuid_create_fingerprint_take fp hfp rand1 h1 rand2 h2]
  · rw [hread]
    exact hvlen

theorem cuid_pure_layout_witness :
    cuid_read (cuid_init (cuid_create ("fingz".toList) mwc_const_stream mwc_const_stream_seed
        mwc_const_stream mwc_const_stream_seed) 3) =
      'c' :: (cuid_base36_render 3 6 '0'
        ++ cuid_base36_render 0 4 '0'
        ++ ("fingz".toList).take 4
        ++ cuid_base36_render (mwc_read_random
            (cuid_init (cuid_create ("fingz".toList) mwc_const_stream mwc_const_stream_seed
              mwc_const_stream mwc_const_stream_seed) 3).cuid_rnd1) 4 '0'
        ++ cuid_base36_render (mwc_read_random
            (cuid_init (cuid_create ("fingz".toList) mwc_const_stream mwc_const_stream_seed
              mwc_const_stream mwc_const_stream_seed) 3).cuid_rnd2) 4 '0'
        ++ [cuid_nul]) ∧
    (cuid_read (cuid_init (cuid_create ("fingz".toList) mwc_const_stream mwc_const_stream_seed
      mwc_const_stream mwc_const_stream_seed) 3)).length = 24 :=
  cuid_pure_layout ("fingz".toList) (by norm_num) mwc_const_stream mwc_const_stream_seed
    mwc_const_stream mwc_const_stream_seed 3 [] _ rfl

/-- C1: with fingerprint bytes `"fing"`, initializing the created context
at timestamp 123456789 reads back `"c21i3v90000fing"` as its first 15
characters, and a subsequent advance at timestamp 223456789 reads back
`"c3p1gd10001fing"` — for every pair of seeding streams behind the two
MWC states. -/
theorem cuid_pure_end_to_end (rand1 : Nat → Nat) (h1 : ∃ i, mwc_seed_ok rand1 i)
    (rand2 : Nat → Nat) (h2 : ∃ i, mwc_seed_ok rand2 i) :
    (cuid_read (cuid_init (cuid_create ("fing".toList ++ [cuid_nul]) rand1 h1 rand2 h2) 123456789)).take 15 = "c21i3v90000fing".toList ∧
    (cuid_read (cuid_next (cuid_init (cuid_create ("fing".toList ++ [cuid_nul]) rand1 h1 rand2 h2) 123456789) 223456789)).take 15 = "c3p1gd10001fing".toList := by
  have hcfl : (cuid_create ("fing".toList ++ [cuid_nul]) rand1 h1 rand2 h2).cuid_fingerprint.length = 16 :=
    cuid_create_fingerprint_length _ rand1 h1 rand2 h2
  have hrnd1 : cuid_rendered (cuid_init (cuid_create ("fing".toList ++ [cuid_nul]) rand1 h1 rand2 h2) 123456789) :=
    cuid_init_rendered _ 123456789 (by rw [hcfl]; norm_num)
  have hrnd2 : cuid_rendered (cuid_next (cuid_init (cuid_create ("fing".toList ++ [cuid_nul]) rand1 h1 rand2 h2) 123456789) 223456789) :=
    cuid_next_rendered _ 223456789 hrnd1
  have hread1 : cuid_read (cuid_init (cuid_create ("fing".toList ++ [cuid_nul]) rand1 h1 rand2 h2) 123456789) = (cuid_init (cuid_create ("fing".toList ++ [cuid_nul]) rand1 h1 rand2 h2) 123456789).cuid_value := by
    rw [cuid_read]
    exact List.take_of_length_le
      (by rw [cuid_rendered_value_length _ hrnd1]; norm_num [CUID_SIZE])
  have hread2 : cuid_read (cuid_next (cuid_init (cuid_create ("fing".toList ++ [cuid_nul]) rand1 h1 rand2 h2) 123456789) 223456789) = (cuid_next (cuid_init (cuid_create ("fing".toList ++ [cuid_nul]) rand1 h1 rand2 h2) 123456789) 223456789).cuid_value := by
    rw [cuid_read]
    exact List.take_of_length_le
      (by rw [cuid_rendered_value_length _ hrnd2]; norm_num [CUID_SIZE])
  have hFtake : (cuid_create ("fing".toList ++ [cuid_nul]) rand1 h1 rand2 h2).cuid_fingerprint.take 4 = ("fing".toList ++ [cuid_nul]).take 4 :=
    cuid_create_fingerprint_take _ (by norm_num) rand1 h1 rand2 h2
  constructor
  · rw [hread1, hrnd1.1]
    rw [show (cuid_init (cuid_create ("fing".toList ++ [cuid_nul]) rand1 h1 rand2 h2) 123456789).cuid_timestamp = cuid_base36_render 123456789 6 '0' from rfl]
    rw [show (cuid_init (cuid_create ("fing".toList ++ [cuid_nul]) rand1 h1 rand2 h2) 123456789).cuid_counter = 0 from rfl]
    rw [show (cuid_init (cuid_create ("fing".toList ++ [cuid_nul]) rand1 h1 rand2 h2) 123456789).cuid_fingerprint = (cuid_create ("fing".toList ++ [cuid_nul]) rand1 h1 rand2 h2).cuid_fingerprint from rfl]
    rw [hFtake]
    rw [List.take_of_length_le (le_of_eq (cuid_base36_render_length 123456789 6 '0'))]
    rw [take15_shape _ _ _ _ _ _ (cuid_base36_render_length _ _ _)
      (cuid_base36_render_length _ _ _) (by decide)]
    decide
  · rw [hread2, hrnd2.1]
    rw [show (cuid_next (cuid_init (cuid_create ("fing".toList ++ [cuid_nul]) rand1 h1 rand2 h2) 123456789) 223456789).cuid_timestamp = cuid_base36_render 223456789 6 '0' from rfl]
    rw [show (cuid_next (cuid_init (cuid_create ("fing".toList ++ [cuid_nul]) rand1 h1 rand2 h2) 123456789) 223456789).cuid_counter = 1 from rfl]
    rw [show (cuid_next (cuid_init (cuid_create ("fing".toList ++ [cuid_nul]) rand1 h1 rand2 h2) 123456789) 223456789).cuid_fingerprint = (cuid_create ("fing".toList ++ [cuid_nul]) rand1 h1 rand2 h2).cuid_fingerprint from rfl]
    rw [hFtake]
    rw [List.take_of_length_le (le_of_eq (cuid_base36_render_length 223456789 6 '0'))]
    rw [take15_shape _ _ _ _ _ _ (cuid_base36_render_length _ _ _)
      (cuid_base36_render_length _ _ _) (by decide)]
    decide

theorem cuid_pure_end_to_end_witness :
    (cuid_read (cuid_init (cuid_create ("fing".toList ++ [cuid_nul]) mwc_const_stream
      mwc_const_stream_seed mwc_const_stream mwc_const_stream_seed)
      123456789)).take 15 = "c21i3v90000fing".toList ∧
    (cuid_read (cuid_next (cuid_init (cuid_create ("fing".toList ++ [cuid_nul]) mwc_const_stream
      mwc_const_stream_seed mwc_const_stream mwc_const_stream_seed)
      123456789) 223456789)).take 15 = "c3p1gd10001fing".toList :=
  cuid_pure_end_to_end mwc_const_stream mwc_const_stream_seed
    mwc_const_stream mwc_const_stream_seed
